import Mathlib

/-!
# TalkEQ — shallow embedding and verification of spec claims

This file embeds, in Lean 4, the parts of the TalkEQ source that the
frozen claims talk about, and settles each claim against that embedding:

* `characterdb` (src/auction/auction.go, third file in the bundle):
  `Character`, `PlayerChange`, `SetCharacters`, `CharactersOnline`.
* `raid` (src/raid/raid.go): `ParseRaidDump`, `parseMemberLine`,
  `normalizeClass`, the dump-collection state machine
  (`ProcessTelnetLine` / `finishDump` / the 10-second timer callback).
* `client` (src/auction/auction.go, second file in the bundle):
  the keep-alive reconnect tick of `Client.loop`, and `Client.onMessage`.
* `telnet` (src/request/request.go): `sendPlayerNotifications`.
* `config` (src/config/route.go, src/unnamed/part_003):
  `Route.LoadMessagePattern`, `Config.KeepAliveRetryDuration` and
  Go's `time.ParseDuration`.

Go maps are embedded as association lists (`List (String × α)`); Go map
iteration order is unspecified, so every claim proved below is stated in
an order-insensitive way or against the list order the embedding fixes.
Go `int` / `time.Duration` are embedded as `Int` with the 64-bit bounds
made explicit where the source's overflow behaviour matters.
-/

namespace TalkEQ

/-! ## String helpers shared by the embedded files

Go's `regexp` package (RE2) interprets the character classes used by the
patterns in the source as follows, restricted to ASCII: `\w` is
`[0-9A-Za-z_]`, `\d` is `[0-9]`, `\s` is `[\t\n\f\r ]`.  Go's
`strings.TrimSpace` / `unicode.IsSpace` additionally treat `\v`, U+0085
and U+00A0 as space (code points beyond Latin-1 are not exercised by any
claim and are omitted). -/

/-- RE2 `\w` (ASCII word character). -/
def isWordChar (c : Char) : Bool :=
  (('a' ≤ c && c ≤ 'z') || ('A' ≤ c && c ≤ 'Z') || ('0' ≤ c && c ≤ '9') || c = '_')

/-- RE2 `\d`. -/
def isDigitChar (c : Char) : Bool :=
  '0' ≤ c && c ≤ '9'

/-- RE2 `\s`: `[\t\n\f\r ]`. -/
def isReSpace (c : Char) : Bool :=
  c = '\t' || c = '\n' || c = '\x0c' || c = '\r' || c = ' '

/-- Go `unicode.IsSpace` (Latin-1 part). -/
def isGoSpace (c : Char) : Bool :=
  c = '\t' || c = '\n' || c = '\x0b' || c = '\x0c' || c = '\r' || c = ' '
    || c = '\x85' || c = '\xa0'

/-- Go `strings.TrimSpace` (Latin-1 part). -/
def goTrimSpace (s : List Char) : List Char :=
  ((s.dropWhile isGoSpace).reverse.dropWhile isGoSpace).reverse

/-- ASCII lower-casing, as Go `strings.ToLower` acts on ASCII input. -/
def lowerChar (c : Char) : Char :=
  if 'A' ≤ c && c ≤ 'Z' then Char.ofNat (c.toNat + 32) else c

/-- Go `strings.ToLower` on a character list. -/
def lowerStr (s : List Char) : List Char :=
  s.map lowerChar

/-- Case-insensitive `strings.HasPrefix`-style check (used for the `(?i)^...`
anchored raid-dump marker patterns, which search for a match at the start
of the line and leave the rest unconstrained). -/
def hasPrefixCI (s pfx : List Char) : Bool :=
  (lowerStr pfx).isPrefixOf (lowerStr s)

/-- Go `strings.Contains` (substring test). -/
def goContains : (hay needle : List Char) → Bool
  | [], needle => needle.isPrefixOf []
  | hay@(_ :: t), needle => needle.isPrefixOf hay || goContains t needle

/-- Numeric value of a digit run. -/
def digitsVal (ds : List Char) : Nat :=
  ds.foldl (fun acc c => acc * 10 + (c.toNat - '0'.toNat)) 0

/-- Go `strconv.Atoi` on an all-digit string (the only shape the raid
regexes can capture): out-of-range input returns the clamped maximum and
an error the callers discard with `_`, so the clamped value survives. -/
def goAtoiDigits (ds : List Char) : Int :=
  if digitsVal ds ≤ 2 ^ 63 - 1 then (digitsVal ds : Int) else 2 ^ 63 - 1

end TalkEQ

namespace TalkEQ.Characterdb

/-! ## characterdb (third file inside src/auction/auction.go)

`Character`, `PlayerChange`, `SetCharacters` (lines 637-673) and
`CharactersOnline` (lines 563-625).  The package-global
`characters map[string]*Character` is embedded as an explicit
association-list argument threaded through `SetCharacters`; the
`CharactersOnline` iteration over map values is embedded as iteration
over an explicit value list. -/

/-- Embeds `Character` (src/auction/auction.go lines 544-557). -/
structure Character where
  isOnline : Bool := false
  identity : String := ""
  state : String := ""
  level : Int := 0
  class' : String := ""
  name : String := ""
  race : String := ""
  zone : String := ""
  acctID : Int := 0
  acctName : String := ""
  lsID : Int := 0
  status : Int := 0
  deriving Repr, DecidableEq

/-- Embeds `PlayerChange` (src/auction/auction.go lines 628-634). -/
structure PlayerChange where
  name : String
  class' : String
  level : Int
  zone : String
  online : Bool
  deriving Repr, DecidableEq

/-- The package-global `characters` map, embedded as an association list. -/
abbrev CharMap := List (String × Character)

/-- Key set of a snapshot. -/
def keysOf (m : CharMap) : List String := m.map Prod.fst

/-- The `PlayerChange` built for an arrival (`Online: true`). -/
def mkOnline (c : Character) : PlayerChange :=
  ⟨c.name, c.class', c.level, c.zone, true⟩

/-- The `PlayerChange` built for a departure (`Online: false`). -/
def mkOffline (c : Character) : PlayerChange :=
  ⟨c.name, c.class', c.level, c.zone, false⟩

/-- Go's `_, existed := m[name]` membership probe on the embedded map. -/
def lookupChar : CharMap → String → Option Character
  | [], _ => none
  | p :: rest, n => if p.1 = n then some p.2 else lookupChar rest n

/-- Embeds `SetCharacters` (src/auction/auction.go lines 637-673): diffs the
request against the current snapshot (first loop: names in `req` absent
from `characters`, `Online: true`; second loop: names in `characters`
absent from `req`, `Online: false`), installs `req` as the new snapshot
and returns a nil error.  Returns (changes, new snapshot, error). -/
def SetCharacters (req cur : CharMap) :
    List PlayerChange × CharMap × Option String :=
  let arrivals := (req.filter (fun p => lookupChar cur p.1 = none)).map
    (fun p => mkOnline p.2)
  let departures := (cur.filter (fun p => lookupChar req p.1 = none)).map
    (fun p => mkOffline p.2)
  (arrivals ++ departures, req, none)

/-- Embeds `strings.Contains` on `String`s. -/
def strContains (hay needle : String) : Bool :=
  TalkEQ.goContains hay.data needle.data

/-- The accumulator loop of `CharactersOnline` (src/auction/auction.go lines
572-602), iterating the snapshot's characters in the embedding's list
order (Go map iteration order is unspecified).  Accumulates
(content, totalCount, hiddenCount, isTruncated). -/
def charactersLoop (filter : String) :
    List Character → String → Nat → Nat → Bool → String × Nat × Nat × Bool
  | [], content, total, hidden, trunc => (content, total, hidden, trunc)
  | user :: rest, content, total, hidden, trunc =>
    let trunc := if 20 ≤ total then true else trunc
    if strContains user.state "ANON" then
      charactersLoop filter rest content total (hidden + 1) trunc
    else if strContains user.state "RolePlay" then
      charactersLoop filter rest content total (hidden + 1) trunc
    else if filter = "" then
      charactersLoop filter rest (content ++ user.name ++ "\n") (total + 1)
        hidden trunc
    else if ¬ strContains user.name filter ∧ ¬ strContains user.zone filter then
      charactersLoop filter rest content total hidden trunc
    else
      charactersLoop filter rest (content ++ user.name ++ "\n") (total + 1)
        hidden trunc

/-- Embeds `CharactersOnline` (src/auction/auction.go lines 563-625).  Note two
behaviours of the source carried over verbatim: `isTruncated` is set once
20 entries have been counted but the loop keeps appending names (there is
no `continue`/`break`), and `hiddenText` is the literal format string
`"(%d hidden) "` which is then substituted via a `%s` verb, so the `%d`
is never replaced by the hidden count. -/
def CharactersOnline (chars : List Character) (filter : String) : String :=
  let r := charactersLoop filter chars "" 0 0 false
  let content := r.1
  let totalCount := r.2.1
  let hiddenCount := r.2.2.1
  let isTruncated := r.2.2.2
  let hiddenText := if 0 < hiddenCount then "(%d hidden) " else ""
  let truncatedText := if isTruncated then "(truncated) " else ""
  if totalCount = 0 then
    "There are 0 players " ++ hiddenText ++ "online."
  else if filter = "" then
    "There are " ++ toString totalCount ++ " players " ++ hiddenText ++
      "online" ++ truncatedText ++ ":\n" ++ content
  else
    "There are " ++ toString totalCount ++ " players " ++ hiddenText ++
      truncatedText ++ "who match '" ++ filter ++ "':\n" ++ content

end TalkEQ.Characterdb

namespace TalkEQ.Raid

open TalkEQ

/-! ## raid (src/raid/raid.go)

The five raid-member line patterns are RE2 regexes anchored with `^...$`;
each is embedded here as a deterministic character-level matcher whose
behaviour (including the greedy/lazy capture choices) is justified
against RE2 semantics in the comments.  The start/end marker patterns
are `(?i)^...`-anchored searches, i.e. case-insensitive prefix tests. -/

/-- Embeds `RaidMember` (src/raid/raid.go lines 22-27); omitted fields keep Go's
zero values (`0`, `""`). -/
structure RaidMember where
  name : String := ""
  level : Int := 0
  class' : String := ""
  groupNumber : Int := 0
  deriving Repr, DecidableEq

/-- The `classMap` table of `normalizeClass` (src/raid/raid.go lines 410-428). -/
def classMap : List (String × String) :=
  [("bard", "BARD"), ("beastlord", "BEASTLORD"), ("berserker", "BERSERKER"),
   ("cleric", "CLERIC"), ("druid", "DRUID"), ("enchanter", "ENCHANTER"),
   ("magician", "MAGICIAN"), ("monk", "MONK"), ("necromancer", "NECROMANCER"),
   ("paladin", "PALADIN"), ("ranger", "RANGER"), ("rogue", "ROGUE"),
   ("shadow knight", "SHADOWKNIGHT"), ("shadowknight", "SHADOWKNIGHT"),
   ("shaman", "SHAMAN"), ("warrior", "WARRIOR"), ("wizard", "WIZARD")]

/-- Embeds `normalizeClass` (src/raid/raid.go lines 409-434):
`strings.TrimSpace(strings.ToLower(input))`, table lookup, `"UNKNOWN"`
fallback. -/
def normalizeClass (input : List Char) : String :=
  let normalized := String.mk (goTrimSpace (lowerStr input))
  match classMap.lookup normalized with
  | some v => v
  | none => "UNKNOWN"

/-- Pattern 1, `^\s*(\d+)\s*\|\s*(\w+)\s*\|\s*(\d+)\s*\|\s*(\w[\w ]*\w)\s*$`
(src/raid/raid.go line 73).  All capture boundaries are forced: each
greedy `\d+`/`\w+` run is followed by characters disjoint from its class,
and the final class capture must start and end with `\w`, so it is the
remainder with trailing `\s` stripped.  Returns (group, name, level,
class) captures. -/
def matchP1 (cs0 : List Char) :
    Option (List Char × List Char × List Char × List Char) :=
  let cs := cs0.dropWhile isReSpace
  let d1 := cs.takeWhile isDigitChar
  let cs := cs.dropWhile isDigitChar
  if d1.isEmpty then none else
  match cs.dropWhile isReSpace with
  | '|' :: cs =>
    let cs := cs.dropWhile isReSpace
    let w := cs.takeWhile isWordChar
    let cs := cs.dropWhile isWordChar
    if w.isEmpty then none else
    match cs.dropWhile isReSpace with
    | '|' :: cs =>
      let cs := cs.dropWhile isReSpace
      let d2 := cs.takeWhile isDigitChar
      let cs := cs.dropWhile isDigitChar
      if d2.isEmpty then none else
      match cs.dropWhile isReSpace with
      | '|' :: cs =>
        let cs := cs.dropWhile isReSpace
        let cls := (cs.reverse.dropWhile isReSpace).reverse
        if 2 ≤ cls.length
            && cls.all (fun c => isWordChar c || c = ' ')
            && cls.headD ' ' ≠ ' ' && cls.getLastD ' ' ≠ ' '
            && isWordChar (cls.headD ' ') && isWordChar (cls.getLastD ' ')
        then some (d1, w, d2, cls) else none
      | _ => none
    | _ => none
  | _ => none

/-- The tail `\s+(?:Group\s+)?(\d+)\s*$` of pattern 2.  The `\s+` runs and
the digit run admit only their maximal extents (each is followed by a
disjoint character class), and the optional literal `Group` can succeed
only where a bare `\d+` cannot, so no backtracking alternative is lost.
Returns the digit capture. -/
def matchGroupDigits (cs : List Char) : Option (List Char) :=
  let sp := cs.takeWhile isReSpace
  let r := cs.dropWhile isReSpace
  if sp.isEmpty then none else
  let r :=
    if ['G', 'r', 'o', 'u', 'p'].isPrefixOf r then
      let r2 := (r.drop 5)
      if (r2.takeWhile isReSpace).isEmpty then r else r2.dropWhile isReSpace
    else r
  let ds := r.takeWhile isDigitChar
  let rest := r.dropWhile isDigitChar
  if ds.isEmpty then none
  else if rest.all isReSpace then some ds else none

/-- Pattern 2, `^\s*(\w+)\s+(\d+)\s+([\w ]+?)\s+(?:Group\s+)?(\d+)\s*$`
(src/raid/raid.go line 75).  The head captures are forced as in pattern
1; for the tail after the level digits, RE2's preferences are enumerated
explicitly: the `\s+` before the lazy class prefers its longest extent,
and the class capture `([\w ]+?)` prefers its shortest.  Returns (name,
level, class, group) captures. -/
def matchP2 (cs0 : List Char) :
    Option (List Char × List Char × List Char × List Char) :=
  let cs := cs0.dropWhile isReSpace
  let w := cs.takeWhile isWordChar
  let cs := cs.dropWhile isWordChar
  if w.isEmpty then none else
  let sp1 := cs.takeWhile isReSpace
  let cs := cs.dropWhile isReSpace
  if sp1.isEmpty then none else
  let d := cs.takeWhile isDigitChar
  let cs := cs.dropWhile isDigitChar
  if d.isEmpty then none else
  let k := (cs.takeWhile isReSpace).length
  let hit := (List.range k).findSome? (fun i =>
    let r := cs.drop (k - i)
    (List.range r.length).findSome? (fun j =>
      let cls := r.take (j + 1)
      if cls.all (fun c => isWordChar c || c = ' ') then
        match matchGroupDigits (r.drop (j + 1)) with
        | some ds => some (cls, ds)
        | none => none
      else none))
  match hit with
  | some (cls, ds) => some (w, d, cls, ds)
  | none => none

/-- Pattern 3, `^\s*(\w+)\s+\((\d+)\s+([\w ]+?)\)\s*$` (src/raid/raid.go
line 77).  The lazy class sits between a maximal `\s+` run and the
literal `)` (which `[\w ]` cannot match), so the capture is exactly the
characters up to the first `)`.  Returns (name, level, class). -/
def matchP3 (cs0 : List Char) :
    Option (List Char × List Char × List Char) :=
  let cs := cs0.dropWhile isReSpace
  let w := cs.takeWhile isWordChar
  let cs := cs.dropWhile isWordChar
  if w.isEmpty then none else
  let sp1 := cs.takeWhile isReSpace
  let cs := cs.dropWhile isReSpace
  if sp1.isEmpty then none else
  match cs with
  | '(' :: cs =>
    let ds := cs.takeWhile isDigitChar
    let cs := cs.dropWhile isDigitChar
    if ds.isEmpty then none else
    let sp2 := cs.takeWhile isReSpace
    let cs := cs.dropWhile isReSpace
    if sp2.isEmpty then none else
    let cls := cs.takeWhile (fun c => c ≠ ')')
    match cs.dropWhile (fun c => c ≠ ')') with
    | ')' :: tail =>
      if ¬ cls.isEmpty && cls.all (fun c => isWordChar c || c = ' ')
          && tail.all isReSpace
      then some (w, ds, cls) else none
    | _ => none
  | _ => none

/-- The tail `\s+([\w ]+?)\s*$` shared by patterns 2 and 4 when no group
follows the class: enumerate the `\s+` extents longest-first (greedy) and
the class extents shortest-first (lazy), exactly RE2's preference order.
Returns the class capture. -/
def matchClsEnd (cs : List Char) : Option (List Char) :=
  let k := (cs.takeWhile isReSpace).length
  (List.range k).findSome? (fun i =>
    let r := cs.drop (k - i)
    (List.range r.length).findSome? (fun j =>
      let cls := r.take (j + 1)
      if cls.all (fun c => isWordChar c || c = ' ')
          && (r.drop (j + 1)).all isReSpace
      then some cls else none))

/-- Pattern 4, `^\s*\[(?:Group\s+)?(\d+)\]\s*(\w+)\s+(\d+)\s+([\w ]+?)\s*$`
(src/raid/raid.go line 79).  Returns (group, name, level, class). -/
def matchP4 (cs0 : List Char) :
    Option (List Char × List Char × List Char × List Char) :=
  match cs0.dropWhile isReSpace with
  | '[' :: cs =>
    let cs :=
      if ['G', 'r', 'o', 'u', 'p'].isPrefixOf cs then
        let r2 := cs.drop 5
        if (r2.takeWhile isReSpace).isEmpty then cs else r2.dropWhile isReSpace
      else cs
    let ds := cs.takeWhile isDigitChar
    let cs := cs.dropWhile isDigitChar
    if ds.isEmpty then none else
    match cs with
    | ']' :: cs =>
      let cs := cs.dropWhile isReSpace
      let w := cs.takeWhile isWordChar
      let cs := cs.dropWhile isWordChar
      if w.isEmpty then none else
      let sp := cs.takeWhile isReSpace
      let cs := cs.dropWhile isReSpace
      if sp.isEmpty then none else
      let d2 := cs.takeWhile isDigitChar
      let cs := cs.dropWhile isDigitChar
      if d2.isEmpty then none else
      match matchClsEnd cs with
      | some cls => some (ds, w, d2, cls)
      | none => none
    | _ => none
  | _ => none

/-- Pattern 5, `^\s*(\w{2,})\s*$` (src/raid/raid.go line 81): a single
word of length at least 2 surrounded only by whitespace. -/
def matchP5 (cs0 : List Char) : Option (List Char) :=
  let cs := cs0.dropWhile isReSpace
  let w := cs.takeWhile isWordChar
  let rest := cs.dropWhile isWordChar
  if 2 ≤ w.length && rest.all isReSpace then some w else none

/-- The stop-list of `parseMemberLine`'s bare-name fallback
(src/raid/raid.go lines 266-270). -/
def stopList : List String :=
  ["name", "player", "class", "level", "group", "raid", "members", "total"]

/-- Embeds `parseMemberLine` (src/raid/raid.go lines 215-277): the five patterns
are tried in fixed order, first match wins; `strconv.Atoi` errors are
discarded (`_`). -/
def parseMemberLine (line : String) : Option RaidMember :=
  let cs := line.data
  match matchP1 cs with
  | some (g, w, lv, cls) =>
    some { name := String.mk w, level := goAtoiDigits lv,
           class' := normalizeClass cls, groupNumber := goAtoiDigits g }
  | none =>
  match matchP2 cs with
  | some (w, lv, cls, g) =>
    some { name := String.mk w, level := goAtoiDigits lv,
           class' := normalizeClass cls, groupNumber := goAtoiDigits g }
  | none =>
  match matchP3 cs with
  | some (w, lv, cls) =>
    some { name := String.mk w, level := goAtoiDigits lv,
           class' := normalizeClass cls }
  | none =>
  match matchP4 cs with
  | some (g, w, lv, cls) =>
    some { name := String.mk w, level := goAtoiDigits lv,
           class' := normalizeClass cls, groupNumber := goAtoiDigits g }
  | none =>
  match matchP5 cs with
  | some w =>
    let lower := String.mk (lowerStr w)
    if lower ∈ stopList then none
    else some { name := String.mk w }
  | none => none

/-- The accumulation loop of `ParseRaidDump` (src/raid/raid.go lines
200-211), threading the `seen` set of lower-cased names. -/
def parseRaidDumpLoop : List String → List String → List RaidMember
  | [], _ => []
  | l :: rest, seen =>
    match parseMemberLine l with
    | none => parseRaidDumpLoop rest seen
    | some m =>
      let key := String.mk (lowerStr m.name.data)
      if key ∈ seen then parseRaidDumpLoop rest seen
      else m :: parseRaidDumpLoop rest (key :: seen)

/-- Embeds `ParseRaidDump` (src/raid/raid.go lines 196-213). -/
def ParseRaidDump (lines : List String) : List RaidMember :=
  parseRaidDumpLoop lines []

/-- Embeds `raidDumpStartPatterns` (src/raid/raid.go lines 60-65): the four
`(?i)^...` patterns are unanchored-at-the-end searches, i.e.
case-insensitive prefix tests. -/
def startMatch (t : List Char) : Bool :=
  hasPrefixCI t "Raid Members:".data || hasPrefixCI t "Players on raid:".data
    || hasPrefixCI t "#raidlist".data || hasPrefixCI t "Raid roster".data

/-- Embeds `raidDumpEndPatterns` (src/raid/raid.go lines 85-89):
`(?i)^\d+ total raid members`, `(?i)^End of raid`, `(?i)^---`. -/
def endMatch (t : List Char) : Bool :=
  (let ds := t.takeWhile isDigitChar
   ¬ ds.isEmpty && hasPrefixCI (t.drop ds.length) " total raid members".data)
  || hasPrefixCI t "End of raid".data || hasPrefixCI t "---".data

/-- The collector state owned by `Raid` (src/raid/raid.go lines 46-55):
`collecting`, `dumpLines`, and the pending 10-second timer, embedded as a
flag (`timer.Stop()` / a fired callback clear it, `time.AfterFunc` sets
it). -/
structure RaidState where
  collecting : Bool := false
  dumpLines : List String := []
  timerActive : Bool := false
  deriving Repr, DecidableEq

/-- Embeds `finishDump` (src/raid/raid.go lines 172-193): swaps out the buffer,
leaves `Collecting`, and returns the parsed member list that is handed to
the attendance pipeline (`none` when the buffer was empty or no member
parsed — those dumps are logged and ignored). -/
def finishDump (s : RaidState) : RaidState × Option (List RaidMember) :=
  let lines := s.dumpLines
  let s' : RaidState := { s with collecting := false, dumpLines := [] }
  if lines.isEmpty then (s', none)
  else
    let members := ParseRaidDump lines
    if members.isEmpty then (s', none) else (s', some members)

/-- Embeds `ProcessTelnetLine` (src/raid/raid.go lines 117-169).  The second
component is the member list a finish produced on this step (`none` if no
finish happened or the finish discarded the dump). -/
def ProcessTelnetLine (isEnabled : Bool) (line : String) (s : RaidState) :
    RaidState × Option (List RaidMember) :=
  if ¬ isEnabled then (s, none) else
  let t := goTrimSpace line.data
  if t.isEmpty then (s, none) else
  if ¬ s.collecting then
    if startMatch t then
      ({ collecting := true, dumpLines := [], timerActive := true }, none)
    else (s, none)
  else if endMatch t then
    finishDump { s with timerActive := false }
  else
    ({ s with dumpLines := s.dumpLines ++ [String.mk t] }, none)

/-- The body of the 10-second `time.AfterFunc` callback installed by
`ProcessTelnetLine` (src/raid/raid.go lines 141-148): it runs only while
the timer is pending (the caller's hypothesis `s.timerActive = true`),
after which the timer is spent; under the lock it finishes the dump only
if the collector is still collecting. -/
def timerFire (s : RaidState) : RaidState × Option (List RaidMember) :=
  let s' : RaidState := { s with timerActive := false }
  if s'.collecting then finishDump s' else (s', none)

end TalkEQ.Raid

namespace TalkEQ.Client

/-! ## client (second file inside src/auction/auction.go)

The keep-alive reconnect tick of `Client.loop` (lines 345-406) and the
dispatch hub `Client.onMessage` (lines 408-516). -/

/-- The six transport adapters the client wraps (lines 193-203). -/
inductive Transport
  | discord | telnet | sqlreport | eqlog | peqeditorsql | nats
  deriving Repr, DecidableEq

/-- One boolean per transport: used both for the `config.X.IsEnabled`
flags and for the `X.IsConnected()` states. -/
structure TransportFlags where
  discord : Bool := false
  telnet : Bool := false
  sqlreport : Bool := false
  eqlog : Bool := false
  peqeditorsql : Bool := false
  nats : Bool := false
  deriving Repr, DecidableEq

/-- Flag lookup by transport. -/
def TransportFlags.get (f : TransportFlags) : Transport → Bool
  | .discord => f.discord
  | .telnet => f.telnet
  | .sqlreport => f.sqlreport
  | .eqlog => f.eqlog
  | .peqeditorsql => f.peqeditorsql
  | .nats => f.nats

/-- One iteration of the keep-alive `for` loop in `Client.loop`
(src/auction/auction.go lines 384-404): in order, discord, telnet and
sqlreport are reconnected when enabled and not connected; a `connect`
error is only logged (`log.Warn`), so the tick continues and returns
normally whatever `connectOk` says.  Returns the ordered list of
transports whose `connect` was called and the connection state after the
tick. -/
def keepAliveTick (enabled connected : TransportFlags)
    (connectOk : Transport → Bool) : List Transport × TransportFlags :=
  let s := connected
  let r1 : List Transport × TransportFlags :=
    if enabled.discord && !s.discord then
      ([Transport.discord],
        if connectOk .discord then { s with discord := true } else s)
    else ([], s)
  let s := r1.2
  let r2 : List Transport × TransportFlags :=
    if enabled.telnet && !s.telnet then
      ([Transport.telnet],
        if connectOk .telnet then { s with telnet := true } else s)
    else ([], s)
  let s := r2.2
  let r3 : List Transport × TransportFlags :=
    if enabled.sqlreport && !s.sqlreport then
      ([Transport.sqlreport],
        if connectOk .sqlreport then { s with sqlreport := true } else s)
    else ([], s)
  (r1.1 ++ r2.1 ++ r3.1, r3.2)

/-- The configuration flags `Client.onMessage` consults
(`config.Discord.IsEnabled`, `config.Telnet.IsEnabled`,
`config.Nats.IsEnabled`). -/
structure HubConfig where
  discordEnabled : Bool := false
  telnetEnabled : Bool := false
  natsEnabled : Bool := false
  deriving Repr, DecidableEq

/-- Embeds `Client.onMessage` (src/auction/auction.go lines 408-516), observed
through its effects: the ordered list of transports whose `send` is
called, the `endpoints` string the final log line reports, and the error
outcome — the Go function returns nothing and swallows every `send`
error after a `log.Warn`, so the error component is always `none`.
`sendOk t` says whether the `send` to transport `t` succeeds; it only
influences the `endpoints` log string. -/
def onMessage (cfg : HubConfig) (sendOk : String → Bool) (source : String) :
    List String × String × Option String :=
  match source with
  | "peqeditorsql" | "telnet" | "nats" | "eqlog" =>
    if ¬ cfg.discordEnabled then ([], "none", none)
    else (["discord"], if sendOk "discord" then "discord" else "none", none)
  | "discord" =>
    let r1 : List String × String :=
      if cfg.telnetEnabled then
        (["telnet"], if sendOk "telnet" then "telnet" else "none")
      else ([], "none")
    let r2 : List String × String :=
      if cfg.natsEnabled then
        (["nats"],
          if sendOk "nats" then
            if r1.2 = "none" then "nats" else r1.2 ++ ",nats"
          else r1.2)
      else ([], r1.2)
    (r1.1 ++ r2.1, r2.2, none)
  | _ => ([], "none", none)

/-- The static source→destinations table the dispatch hub implements:
events from the game-server-side sources go to discord when it is
enabled; discord events go to telnet and nats when they are enabled;
any other source has no destination. -/
def enabledDestinations (cfg : HubConfig) (source : String) : List String :=
  match source with
  | "peqeditorsql" | "telnet" | "nats" | "eqlog" =>
    if cfg.discordEnabled then ["discord"] else []
  | "discord" =>
    (if cfg.telnetEnabled then ["telnet"] else []) ++
      (if cfg.natsEnabled then ["nats"] else [])
  | _ => []

end TalkEQ.Client

namespace TalkEQ.Telnet

open TalkEQ.Characterdb

/-! ## telnet player notifications (second file inside src/request/request.go)

`sendPlayerNotifications` (lines 193-238) plus, modelled from the spec,
the `Connect`-time initialization of `isNewTelnet` (the telnet adapter's
`Connect` is not among the sources). -/

/-- Embeds `config.PlayerNotifications`, the two fields consulted. -/
structure PlayerNotifConfig where
  isEnabled : Bool := false
  channelID : String := ""
  deriving Repr, DecidableEq

/-- Embeds `request.DiscordEmbed`, the fields `sendPlayerNotifications` fills. -/
structure DiscordEmbed where
  channelID : String
  title : String
  description : String
  color : Int
  deriving Repr, DecidableEq

/-- Embeds `colorGreen` (src/request/request.go line 189). -/
def colorGreen : Int := 0x2ECC71

/-- Embeds `colorRed` (src/request/request.go line 190). -/
def colorRed : Int := 0xE74C3C

/-- The embed built for one `PlayerChange` (src/request/request.go lines
206-228). -/
def changeEmbed (channelID : String) (ch : PlayerChange) : DiscordEmbed :=
  let color := if ch.online then colorGreen else colorRed
  let title := if ch.online then "🟢 Player Online" else "🔴 Player Offline"
  let desc :=
    if ch.online then "**" ++ ch.name ++ "** has logged in"
    else "**" ++ ch.name ++ "** has logged off"
  let desc :=
    if ch.class' ≠ "" ∧ 0 < ch.level then
      desc ++ "\nLevel " ++ toString ch.level ++ " " ++ ch.class'
    else desc
  let desc := if ch.zone ≠ "" then desc ++ "\nZone: " ++ ch.zone else desc
  ⟨channelID, title, desc, color⟩

/-- The telnet-adapter state `sendPlayerNotifications` reads: the
first-dump flag and the registered subscriber callbacks (embedded by
count; delivery is indexed). -/
structure TelnetNotifState where
  isNewTelnet : Bool := false
  subscribers : Nat := 0
  deriving Repr, DecidableEq

/-- Embeds `sendPlayerNotifications` (src/request/request.go lines 193-238):
nothing is delivered when notifications are disabled, when no channel is
configured, or — consuming the flag — on the first dump after a connect;
otherwise every change's embed is delivered to every subscriber
(subscriber errors are logged and skipped, so the delivery list does not
depend on them).  Returns the new state and the list of
(subscriber index, embed) callback invocations. -/
def sendPlayerNotifications (cfg : PlayerNotifConfig) (s : TelnetNotifState)
    (changes : List PlayerChange) :
    TelnetNotifState × List (Nat × DiscordEmbed) :=
  if ¬ cfg.isEnabled then (s, [])
  else if cfg.channelID = "" then (s, [])
  else if s.isNewTelnet then ({ s with isNewTelnet := false }, [])
  else
    (s, changes.flatMap (fun ch =>
      (List.range s.subscribers).map (fun i => (i, changeEmbed cfg.channelID ch))))

/-- Modelled from the spec: the telnet adapter's `Connect` — not present
under src/ (only its consumer `sendPlayerNotifications` is) — marks the
session as freshly connected: "Roster dump suppresses all `PlayerChange`
notifications on the first dump after an adapter (re)connect". -/
def connectTelnet (s : TelnetNotifState) : TelnetNotifState :=
  { s with isNewTelnet := true }

end TalkEQ.Telnet

namespace TalkEQ.Config

open TalkEQ

/-! ## config (src/config/route.go and src/unnamed/part_003) -/

/-- Embeds `Route` (src/config/route.go lines 10-19), restricted to the fields
`LoadMessagePattern` consults; `Trigger.Regex` and `Trigger.Custom` are
inlined. -/
structure Route where
  isEnabled : Bool := false
  triggerRegex : String := ""
  triggerCustom : String := ""
  messagePattern : String := ""
  deriving Repr, DecidableEq

/-- The two failure cases of `LoadMessagePattern`. -/
inductive LoadErr
  | tmpl | regex
  deriving Repr, DecidableEq

/-- Embeds `Route.LoadMessagePattern` (src/config/route.go lines 36-54).  The
outcomes of the external libraries are supplied as oracles: `tmplOk` is
whether `text/template` parses the route's message pattern, `regexOk`
whether `regexp.Compile` accepts its trigger regex. -/
def LoadMessagePattern (tmplOk regexOk : Bool) (r : Route) : Option LoadErr :=
  if ¬ r.isEnabled then none
  else if ¬ tmplOk then some .tmpl
  else if r.triggerRegex ≠ "" ∧ r.triggerCustom = "" then
    if ¬ regexOk then some .regex else none
  else none

/-- The unit table of `time.ParseDuration`, in nanoseconds. -/
def unitMap : List (String × Nat) :=
  [("ns", 1), ("us", 1000), ("µs", 1000), ("μs", 1000), ("ms", 1000000),
   ("s", 1000000000), ("m", 60000000000), ("h", 3600000000000)]

/-- Go's `leadingInt` (time package): consume leading digits into `x`,
failing on overflow past `1<<63`. -/
def leadingInt (x : Nat) : List Char → Option (Nat × List Char)
  | [] => some (x, [])
  | c :: rest =>
    if isDigitChar c then
      if x > 2 ^ 63 / 10 then none
      else
        let y := x * 10 + (c.toNat - '0'.toNat)
        if y > 2 ^ 63 then none else leadingInt y rest
    else some (x, c :: rest)

/-- Go's `leadingFraction`: consume digits after the decimal point into
`x` with `scale = 10^k`, silently stopping the accumulation (but still
consuming digits) once it would overflow. -/
def leadingFraction : List Char → Nat → Nat → Bool → Nat × Nat × List Char
  | [], x, scale, _ => (x, scale, [])
  | c :: rest, x, scale, overflow =>
    if isDigitChar c then
      if overflow then leadingFraction rest x scale overflow
      else if x > (2 ^ 63 - 1) / 10 then leadingFraction rest x scale true
      else
        let y := x * 10 + (c.toNat - '0'.toNat)
        if y > 2 ^ 63 then leadingFraction rest x scale true
        else leadingFraction rest y (scale * 10) false
    else (x, scale, c :: rest)

/-- The per-component loop of `time.ParseDuration`
(`([0-9]*(\.[0-9]*)?[a-z]+)+` after the sign).  `fuel` bounds the number
of components; callers pass `s.length + 1` and every component consumes
at least its one-character unit, so the fuel never runs out on reachable
paths.  Where Go computes the fractional contribution through `float64`
(`uint64(float64(f) * (float64(unit) / scale))`), the embedding uses the
exact integer quotient `f * unit / scale`; no claim depends on the
sub-nanosecond rounding of fractions. -/
def parseDurationLoop : Nat → List Char → Nat → Option Nat
  | 0, _, _ => none
  | _ + 1, [], d => some d
  | fuel + 1, s@(c :: _), d =>
    if ¬ (c = '.' ∨ isDigitChar c) then none
    else
      match leadingInt 0 s with
      | none => none
      | some (v, rem) =>
        let pre := rem.length ≠ s.length
        let fr : Nat × Nat × List Char × Bool :=
          match rem with
          | '.' :: rest =>
            let r := leadingFraction rest 0 1 false
            (r.1, r.2.1, r.2.2, r.2.2.length ≠ rest.length)
          | _ => (0, 1, rem, false)
        let f := fr.1
        let scale := fr.2.1
        let rem2 := fr.2.2.1
        let post := fr.2.2.2
        if ¬ pre ∧ ¬ post then none
        else
          let u := rem2.takeWhile (fun ch => ¬ (ch = '.' ∨ isDigitChar ch))
          let rem3 := rem2.dropWhile (fun ch => ¬ (ch = '.' ∨ isDigitChar ch))
          if u.isEmpty then none
          else
            match unitMap.lookup (String.mk u) with
            | none => none
            | some unit =>
              if v > 2 ^ 63 / unit then none
              else
                let v := v * unit
                let vf := if f > 0 then v + f * unit / scale else v
                if f > 0 ∧ vf > 2 ^ 63 then none
                else
                  let d := d + vf
                  if d > 2 ^ 63 then none
                  else parseDurationLoop fuel rem3 d

/-- Embeds `time.ParseDuration` (Go standard library; the external behaviour
`Config.KeepAliveRetryDuration` depends on), returning the duration in
nanoseconds or `none` on a parse error. -/
def goParseDuration (str : String) : Option Int :=
  let s0 := str.data
  let signed : Bool × List Char :=
    match s0 with
    | '-' :: rest => (true, rest)
    | '+' :: rest => (false, rest)
    | s => (false, s)
  let neg := signed.1
  let s := signed.2
  if s = ['0'] then some 0
  else if s = [] then none
  else
    match parseDurationLoop (s.length + 1) s 0 with
    | none => none
    | some d =>
      if neg then some (-(d : Int))
      else if d > 2 ^ 63 - 1 then none
      else some (d : Int)

/-- The constant `10 * time.Second` in nanoseconds. -/
def tenSeconds : Int := 10 * 1000000000

/-- Embeds `Config.KeepAliveRetryDuration` (src/unnamed/part_003 lines 182-193):
parse failure yields `10 * time.Second`; a parsed duration below ten
seconds is floored to ten seconds; anything else is returned unchanged. -/
def KeepAliveRetryDuration (keepAliveRetry : String) : Int :=
  match goParseDuration keepAliveRetry with
  | none => tenSeconds
  | some v => if v < tenSeconds then tenSeconds else v

end TalkEQ.Config


/-! ## Claims -/

namespace TalkEQ.Characterdb

@[simp] theorem keysOf_nil : keysOf [] = [] := rfl

@[simp] theorem keysOf_cons (p : String × Character) (rest : CharMap) :
    keysOf (p :: rest) = p.1 :: keysOf rest := rfl

theorem lookupChar_eq_none_iff (cur : CharMap) (n : String) :
    lookupChar cur n = none ↔ n ∉ keysOf cur := by
  induction cur with
  | nil => simp [lookupChar]
  | cons p rest ih =>
    by_cases h : p.1 = n
    · simp [lookupChar, h]
    · have hstep : lookupChar (p :: rest) n = lookupChar rest n := by
        simp [lookupChar, h]
      rw [hstep, ih, keysOf_cons]
      simp only [List.mem_cons]
      constructor
      · intro hnot hor
        rcases hor with h1 | h2
        · exact h h1.symm
        · exact hnot h2
      · intro hnot h2
        exact hnot (Or.inr h2)

theorem lookupChar_ne_none_of_mem {req : CharMap} {p : String × Character}
    (hp : p ∈ req) : lookupChar req p.1 ≠ none := by
  intro h
  exact ((lookupChar_eq_none_iff req p.1).mp h)
    (List.mem_map_of_mem Prod.fst hp)

theorem countP_diff_part (other : CharMap) (n : String)
    (mk : Character → PlayerChange) (pol : PlayerChange → Bool)
    (hmk : ∀ c, pol (mk c) = true ∧ (mk c).name = c.name)
    (src : CharMap) (hnd : (keysOf src).Nodup)
    (hwf : ∀ p ∈ src, p.2.name = p.1) :
    ((src.filter (fun p => lookupChar other p.1 = none)).map
        (fun p => mk p.2)).countP (fun ch => decide (ch.name = n) && pol ch)
      = if n ∈ keysOf src ∧ n ∉ keysOf other then 1 else 0 := by
  induction src with
  | nil => simp
  | cons p rest ih =>
    rw [keysOf_cons] at hnd
    have hnd' : (keysOf rest).Nodup := hnd.of_cons
    have hpn : p.1 ∉ keysOf rest := (List.nodup_cons.mp hnd).1
    have hwf' : ∀ q ∈ rest, q.2.name = q.1 := fun q hq =>
      hwf q (List.mem_cons_of_mem _ hq)
    have hpw : p.2.name = p.1 := hwf p (List.mem_cons_self _ _)
    have hih := ih hnd' hwf'
    have hq : (decide ((mk p.2).name = n) && pol (mk p.2)) = decide (p.1 = n) := by
      simp [(hmk p.2).1, (hmk p.2).2, hpw]
    by_cases hl : lookupChar other p.1 = none
    · have hno : p.1 ∉ keysOf other := (lookupChar_eq_none_iff other p.1).mp hl
      simp only [List.filter_cons, decide_eq_true_eq]
      rw [if_pos hl, List.map_cons, List.countP_cons, hih, keysOf_cons]
      simp only [hq]
      by_cases hn : n = p.1
      · subst hn
        have hz : ¬ (p.1 ∈ keysOf rest ∧ p.1 ∉ keysOf other) := fun h => hpn h.1
        simp [hz, hno, hpn]
      · have hpn2 : ¬ p.1 = n := fun h => hn h.symm
        simp [hn, hpn2]
    · have hin : p.1 ∈ keysOf other := by
        by_contra hc
        exact hl ((lookupChar_eq_none_iff other p.1).mpr hc)
      simp only [List.filter_cons, decide_eq_true_eq]
      rw [if_neg hl, hih, keysOf_cons]
      by_cases hn : n = p.1
      · subst hn
        simp [hin]
      · simp [hn]

theorem countP_cross_zero (other : CharMap) (n : String)
    (mk : Character → PlayerChange) (pol : PlayerChange → Bool)
    (hmk : ∀ c, pol (mk c) = false) (src : CharMap) :
    ((src.filter (fun p => lookupChar other p.1 = none)).map
        (fun p => mk p.2)).countP (fun ch => decide (ch.name = n) && pol ch)
      = 0 := by
  apply List.countP_eq_zero.mpr
  intro ch hch
  simp only [List.mem_map] at hch
  obtain ⟨p, _, rfl⟩ := hch
  simp [hmk]

theorem setCharacters_self_nil (req cur : CharMap) :
    (SetCharacters req ((SetCharacters req cur).2.1)).1 = [] := by
  have h1 : req.filter (fun p => lookupChar req p.1 = none) = [] := by
    apply List.filter_eq_nil_iff.mpr
    intro p hp
    simpa using lookupChar_ne_none_of_mem hp
  simp [SetCharacters, h1]

theorem mem_changes_polarity (req cur : CharMap)
    (hreqwf : ∀ p ∈ req, p.2.name = p.1) (hcurwf : ∀ p ∈ cur, p.2.name = p.1) :
    ∀ ch ∈ (SetCharacters req cur).1,
      (ch.online = true → ch.name ∈ keysOf req ∧ ch.name ∉ keysOf cur) ∧
      (ch.online = false → ch.name ∈ keysOf cur ∧ ch.name ∉ keysOf req) := by
  intro ch hch
  simp only [SetCharacters, List.mem_append, List.mem_map, List.mem_filter,
    decide_eq_true_eq] at hch
  rcases hch with ⟨p, ⟨hmem, hlk⟩, rfl⟩ | ⟨p, ⟨hmem, hlk⟩, rfl⟩
  · refine ⟨fun _ => ?_, fun habs => by simp [mkOnline] at habs⟩
    have hname : (mkOnline p.2).name = p.1 := by
      simp [mkOnline, hreqwf p hmem]
    rw [hname]
    exact ⟨List.mem_map_of_mem Prod.fst hmem,
      (lookupChar_eq_none_iff cur p.1).mp hlk⟩
  · refine ⟨fun habs => by simp [mkOffline] at habs, fun _ => ?_⟩
    have hname : (mkOffline p.2).name = p.1 := by
      simp [mkOffline, hcurwf p hmem]
    rw [hname]
    exact ⟨List.mem_map_of_mem Prod.fst hmem,
      (lookupChar_eq_none_iff req p.1).mp hlk⟩

/-- C1: For every currently-held snapshot `cur` and new snapshot `req`
(maps keyed by character name, which is also the stored `Name` field, as
every caller builds them), `SetCharacters req` installs `req` as the
current snapshot, returns a nil error, and returns exactly one
`PlayerChange` per name in the symmetric difference of the key sets —
`Online=true` for each name in `req` but not in `cur`, `Online=false` for
each name in `cur` but not in `req`, and no other entries; immediately
calling it again with the same snapshot returns an empty change list; and
calling it with an empty map yields every previously present name
reported offline, with a nil error. -/
theorem C1_setCharacters_symmetric_diff (req cur : CharMap)
    (hreqnd : (keysOf req).Nodup) (hcurnd : (keysOf cur).Nodup)
    (hreqwf : ∀ p ∈ req, p.2.name = p.1) (hcurwf : ∀ p ∈ cur, p.2.name = p.1) :
    (SetCharacters req cur).2.1 = req ∧
    (SetCharacters req cur).2.2 = none ∧
    (∀ n : String,
      (SetCharacters req cur).1.countP
          (fun ch => decide (ch.name = n) && ch.online)
        = (if n ∈ keysOf req ∧ n ∉ keysOf cur then 1 else 0) ∧
      (SetCharacters req cur).1.countP
          (fun ch => decide (ch.name = n) && !ch.online)
        = (if n ∈ keysOf cur ∧ n ∉ keysOf req then 1 else 0)) ∧
    (∀ ch ∈ (SetCharacters req cur).1,
      (ch.online = true → ch.name ∈ keysOf req ∧ ch.name ∉ keysOf cur) ∧
      (ch.online = false → ch.name ∈ keysOf cur ∧ ch.name ∉ keysOf req)) ∧
    (SetCharacters req ((SetCharacters req cur).2.1)).1 = [] ∧
    (SetCharacters ([] : CharMap) cur).1 = cur.map (fun p => mkOffline p.2) ∧
    (SetCharacters ([] : CharMap) cur).2.2 = none := by
  refine ⟨rfl, rfl, ?_, mem_changes_polarity req cur hreqwf hcurwf,
    setCharacters_self_nil req cur, ?_, rfl⟩
  · intro n
    have huf : (SetCharacters req cur).1
        = (req.filter (fun p => lookupChar cur p.1 = none)).map
            (fun p => mkOnline p.2)
          ++ (cur.filter (fun p => lookupChar req p.1 = none)).map
            (fun p => mkOffline p.2) := rfl
    constructor
    · rw [huf, List.countP_append,
        countP_diff_part cur n mkOnline (fun ch => ch.online)
          (fun _ => ⟨rfl, rfl⟩) req hreqnd hreqwf,
        countP_cross_zero req n mkOffline (fun ch => ch.online)
          (fun _ => rfl) cur]
      simp
    · rw [huf, List.countP_append,
        countP_cross_zero cur n mkOnline (fun ch => !ch.online)
          (fun _ => rfl) req,
        countP_diff_part req n mkOffline (fun ch => !ch.online)
          (fun _ => ⟨rfl, rfl⟩) cur hcurnd hcurwf]
      simp
  · simp [SetCharacters, lookupChar]

/-- Concrete snapshots for the C1 witness: `Alice` arrives, `Carl`
departs, `Bob` stays. -/
def c1Req : CharMap :=
  [("Alice", { name := "Alice", class' := "CLERIC", level := 50, zone := "qeynos" : Character }),
   ("Bob", { name := "Bob" : Character })]

/-- Old snapshot for the C1 witness. -/
def c1Cur : CharMap :=
  [("Bob", { name := "Bob" : Character }),
   ("Carl", { name := "Carl", zone := "freeport" : Character })]

/-- Witness for C1 at concrete snapshots. -/
theorem C1_setCharacters_symmetric_diff_witness :
    ((keysOf c1Req).Nodup ∧ (keysOf c1Cur).Nodup ∧
      (∀ p ∈ c1Req, p.2.name = p.1) ∧ (∀ p ∈ c1Cur, p.2.name = p.1)) ∧
    (SetCharacters c1Req c1Cur).1.countP
        (fun ch => decide (ch.name = "Alice") && ch.online) = 1 ∧
    (SetCharacters c1Req c1Cur).1.countP
        (fun ch => decide (ch.name = "Carl") && !ch.online) = 1 ∧
    (SetCharacters c1Req c1Cur).1.countP
        (fun ch => decide (ch.name = "Bob") && ch.online) = 0 ∧
    (SetCharacters c1Req ((SetCharacters c1Req c1Cur).2.1)).1 = [] := by
  have h := C1_setCharacters_symmetric_diff c1Req c1Cur (by decide) (by decide)
    (by decide) (by decide)
  refine ⟨⟨by decide, by decide, by decide, by decide⟩, ?_, ?_, ?_,
    h.2.2.2.2.1⟩
  · rw [(h.2.2.1 "Alice").1]; decide
  · rw [(h.2.2.1 "Carl").2]; decide
  · rw [(h.2.2.1 "Bob").1]; decide

end TalkEQ.Characterdb

namespace TalkEQ.Characterdb

/-- Failing input for C3: one anonymous character plus 21 plainly visible
characters (no filter). -/
def c3Chars : List Character :=
  { name := "Hidden01", state := "ANON" : Character } ::
  (["P01", "P02", "P03", "P04", "P05", "P06", "P07", "P08", "P09", "P10",
    "P11", "P12", "P13", "P14", "P15", "P16", "P17", "P18", "P19", "P20",
    "P21"].map (fun nm => { name := nm : Character }))

/-- C3 (code bug): On a snapshot with 21 visible characters and one
anonymous character, `CharactersOnline` names all 21 characters — the
loop sets `isTruncated` once 20 entries are counted but never stops
appending, so the visible list is not capped at 20 — and the summary
contains the literal text `(%d hidden)`: the hidden count is interpolated
with a `%s` verb applied to the raw format string `"(%d hidden) "`, so
the number of hidden characters is never reported.  The claim (at most 20
named, numeric hidden count) matches the evident intent of
`isTruncated`/`hiddenCount`; the code deviates on both points. -/
theorem C3_charactersOnline_bug :
    CharactersOnline c3Chars "" =
      "There are 21 players (%d hidden) online(truncated) :\nP01\nP02\nP03\nP04\nP05\nP06\nP07\nP08\nP09\nP10\nP11\nP12\nP13\nP14\nP15\nP16\nP17\nP18\nP19\nP20\nP21\n" ∧
    20 < (charactersLoop "" c3Chars "" 0 0 false).2.1 ∧
    strContains (CharactersOnline c3Chars "") "(%d hidden)" = true := by
  exact ⟨by decide, by decide, by decide⟩

end TalkEQ.Characterdb

namespace TalkEQ.Raid

open TalkEQ

/-- Case-insensitive dedup key of a parsed member (`strings.ToLower` of
the name, the key of `seen` in `ParseRaidDump`). -/
def lowerKey (m : RaidMember) : String := String.mk (lowerStr m.name.data)

theorem parseRaidDumpLoop_key_and_first (lines : List String) :
    ∀ (seen : List String), ∀ m ∈ parseRaidDumpLoop lines seen,
      lowerKey m ∉ seen ∧
      ∃ i : Fin lines.length, parseMemberLine (lines.get i) = some m ∧
        ∀ j : Fin lines.length, j.val < i.val → ∀ m',
          parseMemberLine (lines.get j) = some m' →
          lowerKey m' ≠ lowerKey m ∨ lowerKey m' ∈ seen := by
  induction lines with
  | nil => intro seen m hm; simp [parseRaidDumpLoop] at hm
  | cons l rest ih =>
    intro seen m hm
    rw [parseRaidDumpLoop] at hm
    cases hpl : parseMemberLine l with
    | none =>
      rw [hpl] at hm
      obtain ⟨hnot, i, hi, hfirst⟩ := ih seen m hm
      refine ⟨hnot, ⟨i.val + 1, by simpa using i.isLt⟩, hi, ?_⟩
      rintro ⟨jv, hj⟩ hlt m' hpj
      cases jv with
      | zero =>
        simp only [List.get] at hpj
        rw [hpl] at hpj
        cases hpj
      | succ k =>
        exact hfirst ⟨k, by simpa using hj⟩ (by simpa using hlt) m' hpj
    | some m0 =>
      rw [hpl] at hm
      dsimp only at hm
      by_cases hk : String.mk (lowerStr m0.name.data) ∈ seen
      · rw [if_pos hk] at hm
        obtain ⟨hnot, i, hi, hfirst⟩ := ih seen m hm
        refine ⟨hnot, ⟨i.val + 1, by simpa using i.isLt⟩, hi, ?_⟩
        rintro ⟨jv, hj⟩ hlt m' hpj
        cases jv with
        | zero =>
          simp only [List.get] at hpj
          rw [hpl] at hpj
          cases hpj
          exact Or.inr hk
        | succ k =>
          exact hfirst ⟨k, by simpa using hj⟩ (by simpa using hlt) m' hpj
      · rw [if_neg hk] at hm
        rcases List.mem_cons.mp hm with rfl | hm'
        · exact ⟨hk, ⟨0, by simp⟩, hpl, by rintro ⟨jv, hj⟩ hlt; simp at hlt⟩
        · obtain ⟨hnot', i, hi, hfirst'⟩ := ih _ m hm'
          have hne0 : lowerKey m ≠ lowerKey m0 := by
            intro he
            exact hnot' (by rw [he]; exact List.mem_cons_self _ _)
          refine ⟨fun hin => hnot' (List.mem_cons_of_mem _ hin),
            ⟨i.val + 1, by simpa using i.isLt⟩, hi, ?_⟩
          rintro ⟨jv, hj⟩ hlt m' hpj
          cases jv with
          | zero =>
            simp only [List.get] at hpj
            rw [hpl] at hpj
            cases hpj
            exact Or.inl (fun he => hne0 he.symm)
          | succ k =>
            rcases hfirst' ⟨k, by simpa using hj⟩ (by simpa using hlt) m' hpj
              with hne | hmem
            · exact Or.inl hne
            · rcases List.mem_cons.mp hmem with he | hmem'
              · exact Or.inl (by rw [he]; exact fun hc => hne0 hc.symm)
              · exact Or.inr hmem'

theorem parseRaidDumpLoop_pairwise (lines : List String) :
    ∀ seen, (parseRaidDumpLoop lines seen).Pairwise
      (fun a b => lowerKey a ≠ lowerKey b) := by
  induction lines with
  | nil => intro seen; simp [parseRaidDumpLoop]
  | cons l rest ih =>
    intro seen
    rw [parseRaidDumpLoop]
    cases hpl : parseMemberLine l with
    | none => exact ih seen
    | some m0 =>
      dsimp only
      by_cases hk : String.mk (lowerStr m0.name.data) ∈ seen
      · rw [if_pos hk]; exact ih seen
      · rw [if_neg hk]
        refine List.Pairwise.cons ?_ (ih _)
        intro b hb
        have hnot := (parseRaidDumpLoop_key_and_first rest _ b hb).1
        intro he
        exact hnot (by rw [← he]; exact List.mem_cons_self _ _)

/-- C2: `ParseRaidDump` on the four-line example yields exactly the
two members `{A, 60, WARRIOR, 1}` and `{B, 55, CLERIC, 2}`: the header
and footer lines match none of the five member patterns (the bare-name
fallback rejects them because of the `:` / the spaces), and the two pipe
lines match pattern 1 with their classes normalized. -/
theorem C2_parseRaidDump_example :
    ParseRaidDump
        ["Raid Members:", "1 | A | 60 | Warrior", "2 | B | 55 | Cleric",
         "2 total raid members"]
      = [{ name := "A", level := 60, class' := "WARRIOR", groupNumber := 1 },
         { name := "B", level := 55, class' := "CLERIC", groupNumber := 2 }] := by
  decide

/-- C10: For every input line list, `ParseRaidDump` retains at most
one member per case-insensitive name (the result is pairwise distinct on
lower-cased names); each retained member comes from the earliest line
whose parse has that lower-cased name (first occurrence wins); and the §8
example extended with the duplicate line `"1 | a | 60 | Warrior"` still
yields exactly the two members. -/
theorem C10_parseRaidDump_dedup (lines : List String) :
    (ParseRaidDump lines).Pairwise (fun a b => lowerKey a ≠ lowerKey b) ∧
    (∀ m ∈ ParseRaidDump lines,
      ∃ i : Fin lines.length, parseMemberLine (lines.get i) = some m ∧
        ∀ j : Fin lines.length, j.val < i.val → ∀ m',
          parseMemberLine (lines.get j) = some m' →
          lowerKey m' ≠ lowerKey m) ∧
    ParseRaidDump
        ["Raid Members:", "1 | A | 60 | Warrior", "2 | B | 55 | Cleric",
         "1 | a | 60 | Warrior", "2 total raid members"]
      = [{ name := "A", level := 60, class' := "WARRIOR", groupNumber := 1 },
         { name := "B", level := 55, class' := "CLERIC", groupNumber := 2 }] := by
  refine ⟨parseRaidDumpLoop_pairwise lines [], ?_, by decide⟩
  intro m hm
  obtain ⟨-, i, hi, hfirst⟩ := parseRaidDumpLoop_key_and_first lines [] m hm
  exact ⟨i, hi, fun j hj m' hj' =>
    (hfirst j hj m' hj').resolve_right (List.not_mem_nil _)⟩

/-- The §8-with-duplicate line list used to witness C10. -/
def c10Lines : List String :=
  ["Raid Members:", "1 | A | 60 | Warrior", "2 | B | 55 | Cleric",
   "1 | a | 60 | Warrior", "2 total raid members"]

/-- The member the C10 witness tracks. -/
def memberA : RaidMember :=
  { name := "A", level := 60, class' := "WARRIOR", groupNumber := 1 }

/-- Witness for C10 at the concrete duplicate example: the first-wins
index for the member `A` is line 1 (0-based), ahead of the duplicate at
line 3. -/
theorem C10_parseRaidDump_dedup_witness :
    (ParseRaidDump c10Lines).Pairwise (fun a b => lowerKey a ≠ lowerKey b) ∧
    memberA ∈ ParseRaidDump c10Lines ∧
    (∃ i : Fin c10Lines.length,
      parseMemberLine (c10Lines.get i) = some memberA ∧
      ∀ j : Fin c10Lines.length, j.val < i.val → ∀ m',
        parseMemberLine (c10Lines.get j) = some m' →
        lowerKey m' ≠ lowerKey memberA) := by
  have h := C10_parseRaidDump_dedup c10Lines
  exact ⟨h.1, by decide, h.2.1 _ (by decide)⟩

end TalkEQ.Raid

namespace TalkEQ.Client

theorem ite_telnet (c : Prop) [Decidable c] (x y : TransportFlags) :
    (if c then x else y).telnet = if c then x.telnet else y.telnet := by
  split_ifs <;> rfl

theorem ite_sqlreport (c : Prop) [Decidable c] (x y : TransportFlags) :
    (if c then x else y).sqlreport = if c then x.sqlreport else y.sqlreport := by
  split_ifs <;> rfl

theorem keepAliveTick_attempts (enabled connected : TransportFlags)
    (connectOk : Transport → Bool) :
    (keepAliveTick enabled connected connectOk).1
      = (if enabled.discord && !connected.discord
          then [Transport.discord] else [])
        ++ (if enabled.telnet && !connected.telnet
          then [Transport.telnet] else [])
        ++ (if enabled.sqlreport && !connected.sqlreport
          then [Transport.sqlreport] else []) := by
  unfold keepAliveTick
  by_cases h1 : (enabled.discord && !connected.discord) = true <;>
    by_cases h2 : (enabled.telnet && !connected.telnet) = true <;>
      by_cases h3 : (enabled.sqlreport && !connected.sqlreport) = true <;>
        simp [h1, h2, h3, ite_telnet, ite_sqlreport]


/-- C4 (amended): On a keep-alive tick, the transports that receive a
`connect()` call are exactly those among discord, telnet and sqlreport
that are configuration-enabled and currently disconnected — the loop
never reconnects eqlog, peqeditorsql or nats — and the set of attempts
does not depend on which `connect` calls fail (a failure is only logged,
so the tick always completes and never terminates the process). -/
theorem C4_keepAliveTick_reconnects (enabled connected : TransportFlags)
    (connectOk : Transport → Bool) :
    (∀ t : Transport,
      t ∈ (keepAliveTick enabled connected connectOk).1 ↔
        ((t = Transport.discord ∨ t = Transport.telnet ∨
            t = Transport.sqlreport) ∧
          enabled.get t = true ∧ connected.get t = false)) ∧
    (∀ ok : Transport → Bool,
      (keepAliveTick enabled connected ok).1
        = (keepAliveTick enabled connected connectOk).1) := by
  constructor
  · intro t
    rw [keepAliveTick_attempts]
    by_cases h1 : (enabled.discord && !connected.discord) = true <;>
      by_cases h2 : (enabled.telnet && !connected.telnet) = true <;>
        by_cases h3 : (enabled.sqlreport && !connected.sqlreport) = true <;>
          cases t <;> simp_all [TransportFlags.get]
  · intro ok
    rw [keepAliveTick_attempts, keepAliveTick_attempts]

/-- Tick state refuting C4 as stated: only nats is enabled, everything is
disconnected. -/
def c4Enabled : TransportFlags := { nats := true }

/-- All-disconnected connection state for the C4 counterexample. -/
def c4Connected : TransportFlags := {}

/-- C4 counterexample: nats is configuration-enabled and reporting
disconnected, yet the keep-alive tick issues no `connect()` for it (the
loop body only handles discord, telnet and sqlreport), refuting "every
transport adapter that is both configuration-enabled and currently
reporting disconnected receives a connect() call". -/
theorem C4_keepAliveTick_counterexample :
    c4Enabled.get Transport.nats = true ∧
    c4Connected.get Transport.nats = false ∧
    Transport.nats ∉ (keepAliveTick c4Enabled c4Connected
      (fun _ => true)).1 := by
  decide

end TalkEQ.Client

namespace TalkEQ.Raid

theorem finishDump_fst (x : RaidState) :
    (finishDump x).1 = { x with collecting := false, dumpLines := [] } := by
  simp only [finishDump]
  split_ifs <;> rfl

/-- C5: A raid-dump collection cycle finishes at most once, and the
end-marker path and the timer path converge: on a collecting state, an
end-marker line and the timer callback perform the very same finish on
the same accumulated buffer (identical parse result and successor state);
the manual finish leaves the timer cancelled and collection stopped; the
timer callback performs no finish when the cycle is no longer collecting;
and no line event finishes a cycle that is not collecting. -/
theorem C5_raid_finish_once (s : RaidState) (line : String)
    (hcol : s.collecting = true)
    (hne : (goTrimSpace line.data).isEmpty = false)
    (hend : endMatch (goTrimSpace line.data) = true) :
    ProcessTelnetLine true line s = timerFire s ∧
    (ProcessTelnetLine true line s).1.timerActive = false ∧
    (ProcessTelnetLine true line s).1.collecting = false ∧
    (∀ s' : RaidState, s'.collecting = false →
      timerFire s' = ({ s' with timerActive := false }, none)) ∧
    (∀ (e : Bool) (l : String) (s' : RaidState), s'.collecting = false →
      (ProcessTelnetLine e l s').2 = none) := by
  have h1 : ProcessTelnetLine true line s
      = finishDump { s with timerActive := false } := by
    simp [ProcessTelnetLine, hcol, hne, hend]
  have h2 : timerFire s = finishDump { s with timerActive := false } := by
    simp [timerFire, hcol]
  refine ⟨h1.trans h2.symm, ?_, ?_, ?_, ?_⟩
  · rw [h1, finishDump_fst]
  · rw [h1, finishDump_fst]
  · intro s' h
    simp [timerFire, h]
  · intro e l s' h
    cases e
    · simp [ProcessTelnetLine]
    · simp only [ProcessTelnetLine]
      split_ifs <;> simp_all

/-- Concrete collecting state for the C5 witness. -/
def c5State : RaidState :=
  { collecting := true, dumpLines := ["1 | A | 60 | Warrior"],
    timerActive := true }

/-- Witness for C5: on a collecting state with one buffered line, the end
marker `"2 total raid members"` and the timer callback produce the same
finish, with the timer cancelled. -/
theorem C5_raid_finish_once_witness :
    (c5State.collecting = true ∧
      (goTrimSpace "2 total raid members".data).isEmpty = false ∧
      endMatch (goTrimSpace "2 total raid members".data) = true) ∧
    ProcessTelnetLine true "2 total raid members" c5State
      = timerFire c5State ∧
    (ProcessTelnetLine true "2 total raid members" c5State).1.timerActive
      = false := by
  have h := C5_raid_finish_once c5State "2 total raid members" (by decide)
    (by decide) (by decide)
  exact ⟨⟨by decide, by decide, by decide⟩, h.1, h.2.1⟩

end TalkEQ.Raid

namespace TalkEQ.Telnet

open TalkEQ.Characterdb

/-- C6: With player notifications enabled and a channel configured,
the `PlayerChange` notifications of the first dump after the telnet
adapter connects are suppressed (no subscriber callback is invoked, only
the first-dump flag is consumed), and every subsequent dump delivers one
embed per change to every subscriber, leaving the state unchanged (so the
same holds for all later dumps). -/
theorem C6_first_dump_suppressed (cfg : PlayerNotifConfig)
    (s : TelnetNotifState) (changes : List PlayerChange)
    (hen : cfg.isEnabled = true) (hch : cfg.channelID ≠ "") :
    (sendPlayerNotifications cfg (connectTelnet s) changes).2 = [] ∧
    (sendPlayerNotifications cfg (connectTelnet s) changes).1
      = { s with isNewTelnet := false } ∧
    (∀ changes2 : List PlayerChange,
      (sendPlayerNotifications cfg { s with isNewTelnet := false }
          changes2).2
        = changes2.flatMap (fun ch =>
            (List.range s.subscribers).map
              (fun i => (i, changeEmbed cfg.channelID ch))) ∧
      (sendPlayerNotifications cfg { s with isNewTelnet := false }
          changes2).1
        = { s with isNewTelnet := false }) := by
  refine ⟨?_, ?_, ?_⟩
  · simp [sendPlayerNotifications, connectTelnet, hen, hch]
  · simp [sendPlayerNotifications, connectTelnet, hen, hch]
  · intro changes2
    constructor
    · simp [sendPlayerNotifications, hen, hch]
    · simp [sendPlayerNotifications, hen, hch]

/-- Notification config for the C6 witness. -/
def c6Cfg : PlayerNotifConfig := { isEnabled := true, channelID := "chan1" }

/-- Telnet state (one subscriber) for the C6 witness. -/
def c6State : TelnetNotifState := { isNewTelnet := false, subscribers := 1 }

/-- A concrete change for the C6 witness. -/
def c6Change : PlayerChange :=
  { name := "Alice", class' := "CLERIC", level := 50, zone := "qeynos",
    online := true }

/-- Witness for C6: after a connect, the first dump delivers nothing and
the second dump delivers the change's embed to the one subscriber. -/
theorem C6_first_dump_suppressed_witness :
    (c6Cfg.isEnabled = true ∧ c6Cfg.channelID ≠ "") ∧
    (sendPlayerNotifications c6Cfg (connectTelnet c6State) [c6Change]).2
      = [] ∧
    (sendPlayerNotifications c6Cfg { c6State with isNewTelnet := false }
        [c6Change]).2
      = [(0, changeEmbed c6Cfg.channelID c6Change)] := by
  have h := C6_first_dump_suppressed c6Cfg c6State [c6Change] (by decide)
    (by decide)
  refine ⟨⟨by decide, by decide⟩, h.1, ?_⟩
  rw [(h.2.2 [c6Change]).1]
  decide

end TalkEQ.Telnet

namespace TalkEQ.Client

theorem onMessage_sends_eq (cfg : HubConfig) (sendOk : String → Bool)
    (source : String) :
    (onMessage cfg sendOk source).1 = enabledDestinations cfg source := by
  unfold onMessage enabledDestinations
  split <;> (try split_ifs) <;> simp_all

theorem onMessage_no_error (cfg : HubConfig) (sendOk : String → Bool)
    (source : String) :
    (onMessage cfg sendOk source).2.2 = none := by
  unfold onMessage
  split <;> (try split_ifs) <;> rfl

/-- C7: An event whose source has no enabled destination transport
triggers no `send()` call on any transport, and `onMessage` completes
without error (the drop is only a logged outcome; the Go function has no
error return and send failures are swallowed after logging, so the error
component is `none` and the call list is independent of `sendOk`). -/
theorem C7_onMessage_drop (cfg : HubConfig) (sendOk : String → Bool)
    (source : String) (h : enabledDestinations cfg source = []) :
    (onMessage cfg sendOk source).1 = [] ∧
    (onMessage cfg sendOk source).2.2 = none := by
  exact ⟨(onMessage_sends_eq cfg sendOk source).trans h,
    onMessage_no_error cfg sendOk source⟩

/-- Witness for C7: with every destination disabled, a telnet event is
dropped with no send call and no error. -/
theorem C7_onMessage_drop_witness :
    enabledDestinations {} "telnet" = [] ∧
    (onMessage {} (fun _ => true) "telnet").1 = [] ∧
    (onMessage {} (fun _ => true) "telnet").2.2 = none := by
  have h := C7_onMessage_drop {} (fun _ => true) "telnet" (by decide)
  exact ⟨by decide, h.1, h.2⟩

end TalkEQ.Client

namespace TalkEQ.Config

/-- C8 (amended): `LoadMessagePattern` returns an error exactly when
the route is enabled and either its message pattern fails to parse as a
template, or it has a nonempty regex trigger with no custom trigger and
the regex fails to compile.  In particular an enabled route with an
invalid regex (and no custom trigger) always fails at load time — so it
can never reach match time — while a disabled route is never validated
and never fails. -/
theorem C8_loadMessagePattern_exact (tmplOk regexOk : Bool) (r : Route) :
    (LoadMessagePattern tmplOk regexOk r).isSome = true ↔
      (r.isEnabled = true ∧ (tmplOk = false ∨
        (r.triggerRegex ≠ "" ∧ r.triggerCustom = "" ∧ regexOk = false))) := by
  unfold LoadMessagePattern
  split_ifs <;> simp_all

/-- Disabled route with an uncompilable regex trigger for the C8
counterexample. -/
def c8Route : Route :=
  { isEnabled := false, triggerRegex := "(", messagePattern := "x" }

/-- C8 counterexample: With the regex-compilation oracle reporting
failure (Go's `regexp.Compile "("` fails), the disabled route still loads
with a nil error: `LoadMessagePattern` returns no error although the
route's regex trigger fails to compile, refuting the claim's "returns an
error ... exactly when ... its regex trigger fails to compile". -/
theorem C8_loadMessagePattern_counterexample :
    c8Route.triggerRegex ≠ "" ∧ c8Route.triggerCustom = "" ∧
    LoadMessagePattern true false c8Route = none := by
  decide

/-- C9: `KeepAliveRetryDuration` always returns at least ten
seconds: an unparsable `keep_alive_retry` string maps to exactly
`10 * time.Second`, a successfully parsed duration below ten seconds is
floored to ten seconds, and a parsed duration of at least ten seconds is
returned unchanged. -/
theorem C9_keepAliveRetry_floor (s : String) :
    tenSeconds ≤ KeepAliveRetryDuration s ∧
    (goParseDuration s = none → KeepAliveRetryDuration s = tenSeconds) ∧
    (∀ v : Int, goParseDuration s = some v →
      (v < tenSeconds → KeepAliveRetryDuration s = tenSeconds) ∧
      (tenSeconds ≤ v → KeepAliveRetryDuration s = v)) := by
  cases hp : goParseDuration s with
  | none =>
    have hval : KeepAliveRetryDuration s = tenSeconds := by
      unfold KeepAliveRetryDuration
      rw [hp]
    refine ⟨by rw [hval], fun _ => hval, fun v hv => ?_⟩
    cases hv
  | some v =>
    have hval : KeepAliveRetryDuration s
        = if v < tenSeconds then tenSeconds else v := by
      unfold KeepAliveRetryDuration
      rw [hp]
    refine ⟨?_, fun hc => ?_, fun w hw => ?_⟩
    · rw [hval]
      split_ifs with h <;> omega
    · cases hc
    · obtain rfl : v = w := Option.some.inj hw
      constructor
      · intro hlt
        rw [hval, if_pos hlt]
      · intro hge
        rw [hval, if_neg (not_lt.mpr hge)]

/-- Witness for C9 at three concrete retry strings: `"5s"` parses below
the floor, `"junk"` fails to parse, `"30s"` passes through unchanged. -/
theorem C9_keepAliveRetry_floor_witness :
    (goParseDuration "5s" = some 5000000000 ∧
      KeepAliveRetryDuration "5s" = tenSeconds) ∧
    (goParseDuration "junk" = none ∧
      KeepAliveRetryDuration "junk" = tenSeconds) ∧
    (goParseDuration "30s" = some 30000000000 ∧
      KeepAliveRetryDuration "30s" = 30000000000) := by
  refine ⟨⟨by decide, ?_⟩, ⟨by decide, ?_⟩, ⟨by decide, ?_⟩⟩
  · exact ((C9_keepAliveRetry_floor "5s").2.2 5000000000 (by decide)).1
      (by decide)
  · exact (C9_keepAliveRetry_floor "junk").2.1 (by decide)
  · exact ((C9_keepAliveRetry_floor "30s").2.2 30000000000 (by decide)).2
      (by decide)

end TalkEQ.Config
